import Mathlib

set_option maxRecDepth 8000

/-!
Verification of the GA-driven AES key-schedule optimizer
(`GA_AES_Project`: `aes_custom.py` and `ga_optimizer.py`).

The Python code is shallowly embedded: bytes become `Nat` (with `% 256`
where the code wraps), Python lists become `List`, operations that can
raise (`list` indexing with `[i]`) return `Option`, and the sources of
nondeterminism (the `random` module, `evaluate_fitness`'s measurements)
become explicit oracle parameters.
-/

namespace GAAES

/-- `CustomAES.SBOX` (aes_custom.py, lines 18-35): the standard AES S-box. -/
def SBOX : List Nat :=
  [0x63, 0x7c, 0x77, 0x7b, 0xf2, 0x6b, 0x6f, 0xc5, 0x30, 0x01, 0x67, 0x2b, 0xfe, 0xd7, 0xab, 0x76,
   0xca, 0x82, 0xc9, 0x7d, 0xfa, 0x59, 0x47, 0xf0, 0xad, 0xd4, 0xa2, 0xaf, 0x9c, 0xa4, 0x72, 0xc0,
   0xb7, 0xfd, 0x93, 0x26, 0x36, 0x3f, 0xf7, 0xcc, 0x34, 0xa5, 0xe5, 0xf1, 0x71, 0xd8, 0x31, 0x15,
   0x04, 0xc7, 0x23, 0xc3, 0x18, 0x96, 0x05, 0x9a, 0x07, 0x12, 0x80, 0xe2, 0xeb, 0x27, 0xb2, 0x75,
   0x09, 0x83, 0x2c, 0x1a, 0x1b, 0x6e, 0x5a, 0xa0, 0x52, 0x3b, 0xd6, 0xb3, 0x29, 0xe3, 0x2f, 0x84,
   0x53, 0xd1, 0x00, 0xed, 0x20, 0xfc, 0xb1, 0x5b, 0x6a, 0xcb, 0xbe, 0x39, 0x4a, 0x4c, 0x58, 0xcf,
   0xd0, 0xef, 0xaa, 0xfb, 0x43, 0x4d, 0x33, 0x85, 0x45, 0xf9, 0x02, 0x7f, 0x50, 0x3c, 0x9f, 0xa8,
   0x51, 0xa3, 0x40, 0x8f, 0x92, 0x9d, 0x38, 0xf5, 0xbc, 0xb6, 0xda, 0x21, 0x10, 0xff, 0xf3, 0xd2,
   0xcd, 0x0c, 0x13, 0xec, 0x5f, 0x97, 0x44, 0x17, 0xc4, 0xa7, 0x7e, 0x3d, 0x64, 0x5d, 0x19, 0x73,
   0x60, 0x81, 0x4f, 0xdc, 0x22, 0x2a, 0x90, 0x88, 0x46, 0xee, 0xb8, 0x14, 0xde, 0x5e, 0x0b, 0xdb,
   0xe0, 0x32, 0x3a, 0x0a, 0x49, 0x06, 0x24, 0x5c, 0xc2, 0xd3, 0xac, 0x62, 0x91, 0x95, 0xe4, 0x79,
   0xe7, 0xc8, 0x37, 0x6d, 0x8d, 0xd5, 0x4e, 0xa9, 0x6c, 0x56, 0xf4, 0xea, 0x65, 0x7a, 0xae, 0x08,
   0xba, 0x78, 0x25, 0x2e, 0x1c, 0xa6, 0xb4, 0xc6, 0xe8, 0xdd, 0x74, 0x1f, 0x4b, 0xbd, 0x8b, 0x8a,
   0x70, 0x3e, 0xb5, 0x66, 0x48, 0x03, 0xf6, 0x0e, 0x61, 0x35, 0x57, 0xb9, 0x86, 0xc1, 0x1d, 0x9e,
   0xe1, 0xf8, 0x98, 0x11, 0x69, 0xd9, 0x8e, 0x94, 0x9b, 0x1e, 0x87, 0xe9, 0xce, 0x55, 0x28, 0xdf,
   0x8c, 0xa1, 0x89, 0x0d, 0xbf, 0xe6, 0x42, 0x68, 0x41, 0x99, 0x2d, 0x0f, 0xb0, 0x54, 0xbb, 0x16]

/-- `CustomAES.RCON` (aes_custom.py, line 38): the standard round constants. -/
def RCON : List Nat := [0x01, 0x02, 0x04, 0x08, 0x10, 0x20, 0x40, 0x80, 0x1B, 0x36]

/-- `CustomAES.rot_word` (aes_custom.py, lines 61-64): rotate a word left by
`positions % 4` bytes via Python slicing `word[p:] + word[:p]`. -/
def rot_word (word : List Nat) (positions : Nat) : List Nat :=
  let p := positions % 4
  word.drop p ++ word.take p

/-- `CustomAES.sub_word` (aes_custom.py, lines 66-68): S-box substitution on each
byte.  Python would raise `IndexError` on a byte outside `0..255`, hence `Option`. -/
def sub_word : List Nat → Option (List Nat)
  | [] => some []
  | b :: bs =>
    match SBOX[b]?, sub_word bs with
    | some s, some rest => some (s :: rest)
    | _, _ => none

/-- The list comprehension `[temp[j] ^ prev_word[j] for j in range(4)]`
(aes_custom.py, line 97).  Raises (`none`) when either list has fewer than 4
entries, as Python indexing would. -/
def new_word (temp prev_word : List Nat) : Option (List Nat) :=
  match temp with
  | t0 :: t1 :: t2 :: t3 :: _ =>
    match prev_word with
    | p0 :: p1 :: p2 :: p3 :: _ =>
      some [t0 ^^^ p0, t1 ^^^ p1, t2 ^^^ p2, t3 ^^^ p3]
    | _ => none
  | _ => none

/-- The round-boundary body of the expansion loop (`if i % 4 == 0:` block,
aes_custom.py, lines 81-93): custom rotation (defaulting to 1 when the
parameter array has no entry for `round_num`), S-box substitution, and XOR of
the first byte with `(RCON[round_num] * rcon_mult) % 256` (again with default
multiplier 1 for a missing entry). -/
def keyScheduleCore (rotations rcon_multipliers : List Nat) (temp0 : List Nat)
    (round_num : Nat) : Option (List Nat) :=
  match sub_word (rot_word temp0
      (if round_num < rotations.length then rotations.getD round_num 0 else 1)) with
  | none => none
  | some t2 =>
    match RCON[round_num]? with
    | none => none
    | some rcon_base =>
      match t2 with
      | [] => none
      | t0 :: rest =>
        some ((t0 ^^^ (rcon_base *
          (if round_num < rcon_multipliers.length then
            rcon_multipliers.getD round_num 0
          else 1)) % 256) :: rest)

/-- One iteration of the expansion loop of `CustomAES.custom_key_expansion`
(aes_custom.py, lines 78-98) at word index `i`, acting on the accumulated
byte list `expanded`. -/
def expandStep (rotations rcon_multipliers : List Nat) (expanded : List Nat)
    (i : Nat) : Option (List Nat) :=
  match (if i % 4 = 0 then
      keyScheduleCore rotations rcon_multipliers
        ((expanded.drop ((i - 1) * 4)).take 4) (i / 4 - 1)
    else some ((expanded.drop ((i - 1) * 4)).take 4)) with
  | none => none
  | some temp =>
    match new_word temp ((expanded.drop ((i - 4) * 4)).take 4) with
    | none => none
    | some nw => some (expanded ++ nw)

/-- `CustomAES.custom_key_expansion` (aes_custom.py, lines 70-100): start from
the key bytes and run the loop `for i in range(4, 44)`. -/
def custom_key_expansion (rotations rcon_multipliers : List Nat)
    (key : List Nat) : Option (List Nat) :=
  (List.range' 4 40).foldlM (expandStep rotations rcon_multipliers) key

/-- The neutral parameter vector `[1]*10`. -/
def ones10 : List Nat := List.replicate 10 1

/-- One loop iteration of the standard AES-128 key expansion, written from the
spec's description of the standard algorithm (spec.md §4.1): on a round
boundary rotate the previous word left by 1 byte, substitute through the
S-box, and XOR the first byte with `Rcon[round]`; otherwise take the previous
word unchanged; the new word is that XORed with the word 4 positions back. -/
def stdRound (temp0 : List Nat) (round_num : Nat) : Option (List Nat) :=
  match sub_word (rot_word temp0 1) with
  | none => none
  | some t2 =>
    match RCON[round_num]? with
    | none => none
    | some rcon_base =>
      match t2 with
      | [] => none
      | t0 :: rest => some ((t0 ^^^ rcon_base) :: rest)

/-- One loop iteration of the standard AES-128 key expansion (see
`aes128_key_expansion_spec`). -/
def stdStep (expanded : List Nat) (i : Nat) : Option (List Nat) :=
  match (if i % 4 = 0 then
      stdRound ((expanded.drop ((i - 1) * 4)).take 4) (i / 4 - 1)
    else some ((expanded.drop ((i - 1) * 4)).take 4)) with
  | none => none
  | some temp =>
    match new_word temp ((expanded.drop ((i - 4) * 4)).take 4) with
    | none => none
    | some nw => some (expanded ++ nw)

/-- The standard AES-128 key-schedule expansion, written from the spec's
description (independent of `custom_key_expansion`, for the refinement in C1). -/
def aes128_key_expansion_spec (key : List Nat) : Option (List Nat) :=
  (List.range' 4 40).foldlM stdStep key

/-- The published AES-128 key-schedule expansion of the key
`00 01 02 ... 0f` (FIPS-197, the standard test vector for this key: round
keys `d6aa74fd d2af72fa daa678f1 d6ab76fe`, ..., `13111d7f e3944a17 f307a78b
4d2b30c5`), transcribed as bytes. -/
def publishedExpansion : List Nat :=
  [0x00, 0x01, 0x02, 0x03, 0x04, 0x05, 0x06, 0x07, 0x08, 0x09, 0x0a, 0x0b, 0x0c, 0x0d, 0x0e, 0x0f,
   0xd6, 0xaa, 0x74, 0xfd, 0xd2, 0xaf, 0x72, 0xfa, 0xda, 0xa6, 0x78, 0xf1, 0xd6, 0xab, 0x76, 0xfe,
   0xb6, 0x92, 0xcf, 0x0b, 0x64, 0x3d, 0xbd, 0xf1, 0xbe, 0x9b, 0xc5, 0x00, 0x68, 0x30, 0xb3, 0xfe,
   0xb6, 0xff, 0x74, 0x4e, 0xd2, 0xc2, 0xc9, 0xbf, 0x6c, 0x59, 0x0c, 0xbf, 0x04, 0x69, 0xbf, 0x41,
   0x47, 0xf7, 0xf7, 0xbc, 0x95, 0x35, 0x3e, 0x03, 0xf9, 0x6c, 0x32, 0xbc, 0xfd, 0x05, 0x8d, 0xfd,
   0x3c, 0xaa, 0xa3, 0xe8, 0xa9, 0x9f, 0x9d, 0xeb, 0x50, 0xf3, 0xaf, 0x57, 0xad, 0xf6, 0x22, 0xaa,
   0x5e, 0x39, 0x0f, 0x7d, 0xf7, 0xa6, 0x92, 0x96, 0xa7, 0x55, 0x3d, 0xc1, 0x0a, 0xa3, 0x1f, 0x6b,
   0x14, 0xf9, 0x70, 0x1a, 0xe3, 0x5f, 0xe2, 0x8c, 0x44, 0x0a, 0xdf, 0x4d, 0x4e, 0xa9, 0xc0, 0x26,
   0x47, 0x43, 0x87, 0x35, 0xa4, 0x1c, 0x65, 0xb9, 0xe0, 0x16, 0xba, 0xf4, 0xae, 0xbf, 0x7a, 0xd2,
   0x54, 0x99, 0x32, 0xd1, 0xf0, 0x85, 0x57, 0x68, 0x10, 0x93, 0xed, 0x9c, 0xbe, 0x2c, 0x97, 0x4e,
   0x13, 0x11, 0x1d, 0x7f, 0xe3, 0x94, 0x4a, 0x17, 0xf3, 0x07, 0xa7, 0x8b, 0x4d, 0x2b, 0x30, 0xc5]

/-- `Crypto.Util.Padding.pad(plaintext, AES.block_size)` as used by
`CustomAES.encrypt` (aes_custom.py, line 113): PKCS#7 padding to 16 bytes. -/
def pkcs7_pad (data : List Nat) : List Nat :=
  let padLen := 16 - data.length % 16
  data ++ List.replicate padLen padLen

/-- `CustomAES.encrypt` (aes_custom.py, lines 102-121).  The object first
stores `self.expanded_key = self.custom_key_expansion(key)` and then produces
the ciphertext with the *external* primitive `AES.new(key, AES.MODE_ECB)`
applied to the padded plaintext — the primitive is abstracted as the oracle
`ext`, which receives only the padded plaintext and the original key.  The
result models `(ciphertext, self.expanded_key)`; the wall-clock timing
bookkeeping is dropped. -/
def encrypt (ext : List Nat → List Nat → List Nat)
    (rotations rcon_multipliers : List Nat)
    (plaintext key : List Nat) : Option (List Nat × List Nat) :=
  match custom_key_expansion rotations rcon_multipliers key with
  | none => none
  | some expanded_key => some (ext (pkcs7_pad plaintext) key, expanded_key)

/-- Parameter lists shorter than 10 rounds, padded with the neutral value 1
(used to state C10: absent entries behave as the neutral default). -/
def padTo10 (params : List Nat) : List Nat :=
  params ++ List.replicate (10 - params.length) 1

lemma SBOX_length : SBOX.length = 256 := by rfl

lemma SBOX_mem_lt : ∀ x ∈ SBOX, x < 256 := by decide

lemma RCON_length : RCON.length = 10 := by rfl

lemma RCON_mem_lt : ∀ x ∈ RCON, x < 256 := by decide

lemma xor_lt_256 {a b : Nat} (ha : a < 256) (hb : b < 256) : a ^^^ b < 256 :=
  Nat.xor_lt_two_pow (n := 8) ha hb

lemma sub_word_length {w w' : List Nat} (h : sub_word w = some w') :
    w'.length = w.length := by
  induction w generalizing w' with
  | nil =>
    simp only [sub_word, Option.some.injEq] at h
    subst h; rfl
  | cons b bs ih =>
    unfold sub_word at h
    cases hs : SBOX[b]? with
    | none => rw [hs] at h; exact absurd h (by simp)
    | some s =>
      rw [hs] at h
      cases hr : sub_word bs with
      | none => rw [hr] at h; exact absurd h (by simp)
      | some rest =>
        rw [hr] at h
        simp only [Option.some.injEq] at h
        subst h
        simp [ih hr]

lemma sub_word_some {w : List Nat} (h : ∀ b ∈ w, b < 256) :
    ∃ w', sub_word w = some w' ∧ w'.length = w.length ∧ ∀ x ∈ w', x < 256 := by
  induction w with
  | nil => exact ⟨[], rfl, rfl, by simp⟩
  | cons b bs ih =>
    obtain ⟨rest, hr, hlen, hmem⟩ := ih fun x hx => h x (List.mem_cons_of_mem _ hx)
    have hb : b < SBOX.length := by
      rw [SBOX_length]; exact h b (List.mem_cons_self _ _)
    refine ⟨SBOX[b] :: rest, ?_, by simp [hlen], ?_⟩
    · unfold sub_word
      rw [List.getElem?_eq_getElem hb, hr]
    · intro x hx
      rcases List.mem_cons.mp hx with h1 | h2
      · subst h1; exact SBOX_mem_lt _ (SBOX.getElem_mem hb)
      · exact hmem x h2

lemma rot_word_length (w : List Nat) (p : Nat) :
    (rot_word w p).length = w.length := by
  simp [rot_word]; omega

lemma rot_word_subset (w : List Nat) (p : Nat) : rot_word w p ⊆ w := by
  intro x hx
  rcases List.mem_append.mp hx with h | h
  · exact List.drop_subset _ _ h
  · exact List.take_subset _ _ h

lemma length_cons_of_ge_four {l : List Nat} (h : 4 ≤ l.length) :
    ∃ a b c d t, l = a :: b :: c :: d :: t := by
  match l with
  | [] => simp at h
  | [_] => simp at h
  | [_, _] => simp at h
  | [_, _, _] => simp at h
  | a :: b :: c :: d :: t => exact ⟨a, b, c, d, t, rfl⟩

lemma new_word_none_left {temp : List Nat} (prev : List Nat)
    (h : temp.length < 4) : new_word temp prev = none := by
  match temp with
  | [] => rfl
  | [_] => rfl
  | [_, _] => rfl
  | [_, _, _] => rfl
  | _ :: _ :: _ :: _ :: _ => simp at h; omega

lemma new_word_some {temp prev : List Nat} (ht : 4 ≤ temp.length)
    (hp : 4 ≤ prev.length)
    (htlt : ∀ x ∈ temp, x < 256) (hplt : ∀ x ∈ prev, x < 256) :
    ∃ w, new_word temp prev = some w ∧ w.length = 4 ∧ ∀ x ∈ w, x < 256 := by
  obtain ⟨t0, t1, t2, t3, tt, rfl⟩ := length_cons_of_ge_four ht
  obtain ⟨p0, p1, p2, p3, pt, rfl⟩ := length_cons_of_ge_four hp
  refine ⟨_, rfl, rfl, ?_⟩
  intro x hx
  have hXor : ∀ a b : Nat, a ∈ (t0 :: t1 :: t2 :: t3 :: tt) →
      b ∈ (p0 :: p1 :: p2 :: p3 :: pt) → a ^^^ b < 256 := fun a b haa hbb =>
    xor_lt_256 (htlt a haa) (hplt b hbb)
  simp only [List.mem_cons, List.not_mem_nil, or_false] at hx
  rcases hx with rfl | rfl | rfl | rfl
  · exact hXor _ _ (by simp) (by simp)
  · exact hXor _ _ (by simp) (by simp)
  · exact hXor _ _ (by simp) (by simp)
  · exact hXor _ _ (by simp) (by simp)

lemma keyScheduleCore_some (rots rcons : List Nat) {temp0 : List Nat}
    {rn : Nat} (hlen : temp0.length = 4) (hmem : ∀ x ∈ temp0, x < 256)
    (hrn : rn < 10) :
    ∃ t, keyScheduleCore rots rcons temp0 rn = some t ∧ t.length = 4 ∧
      ∀ x ∈ t, x < 256 := by
  have ht1mem : ∀ x ∈ rot_word temp0
      (if rn < rots.length then rots.getD rn 0 else 1), x < 256 :=
    fun x hx => hmem x (rot_word_subset _ _ hx)
  obtain ⟨t2, hs, hl2, hm2⟩ := sub_word_some ht1mem
  rw [rot_word_length] at hl2
  have hrn' : rn < RCON.length := by rw [RCON_length]; exact hrn
  obtain ⟨t0, rest, rfl⟩ : ∃ a r, t2 = a :: r := by
    match t2 with
    | [] => rw [hlen] at hl2; simp at hl2
    | a :: r => exact ⟨a, r, rfl⟩
  unfold keyScheduleCore
  rw [hs, List.getElem?_eq_getElem hrn']
  refine ⟨_, rfl, ?_, ?_⟩
  · simpa [hlen] using hl2
  · intro x hx
    rcases List.mem_cons.mp hx with rfl | h2
    · exact xor_lt_256 (hm2 _ (by simp)) (Nat.mod_lt _ (by norm_num))
    · exact hm2 x (List.mem_cons_of_mem _ h2)

lemma expandStep_some (rots rcons : List Nat) {exp : List Nat} {i : Nat}
    (hi4 : 4 ≤ i) (hi43 : i ≤ 43) (hlen : 4 * i ≤ exp.length)
    (hmem : ∀ b ∈ exp, b < 256) :
    ∃ w, expandStep rots rcons exp i = some (exp ++ w) ∧ w.length = 4 ∧
      ∀ x ∈ w, x < 256 := by
  have htemp0len : ((exp.drop ((i - 1) * 4)).take 4).length = 4 := by
    simp; omega
  have htemp0mem : ∀ x ∈ (exp.drop ((i - 1) * 4)).take 4, x < 256 := fun x hx =>
    hmem x (List.drop_subset _ _ (List.take_subset _ _ hx))
  have hprevlen : 4 ≤ ((exp.drop ((i - 4) * 4)).take 4).length := by
    simp; omega
  have hprevmem : ∀ x ∈ (exp.drop ((i - 4) * 4)).take 4, x < 256 := fun x hx =>
    hmem x (List.drop_subset _ _ (List.take_subset _ _ hx))
  unfold expandStep
  by_cases hmod : i % 4 = 0
  · have hrn : i / 4 - 1 < 10 := by omega
    obtain ⟨t, hct, hlt, hmt⟩ :=
      keyScheduleCore_some rots rcons htemp0len htemp0mem hrn
    rw [if_pos hmod, hct]
    have h4t : 4 ≤ t.length := by omega
    obtain ⟨w, hw, hwl, hwm⟩ := new_word_some h4t hprevlen hmt hprevmem
    dsimp only
    rw [hw]
    exact ⟨w, rfl, hwl, hwm⟩
  · rw [if_neg hmod]
    obtain ⟨w, hw, hwl, hwm⟩ :=
      new_word_some (by omega) hprevlen htemp0mem hprevmem
    dsimp only
    rw [hw]
    exact ⟨w, rfl, hwl, hwm⟩

lemma expand_fold_some (rots rcons : List Nat) :
    ∀ (n i : Nat) (exp : List Nat), 4 ≤ i → i + n ≤ 44 → 4 * i ≤ exp.length →
    (∀ b ∈ exp, b < 256) →
    ∃ out, (List.range' i n).foldlM (expandStep rots rcons) exp = some out ∧
      out.length = exp.length + 4 * n ∧ out.take 16 = exp.take 16 ∧
      ∀ x ∈ out, x < 256 := by
  intro n
  induction n with
  | zero => exact fun i exp _ _ _ hm => ⟨exp, rfl, by simp, rfl, hm⟩
  | succ m ih =>
    intro i exp hi4 hin hlen hmem
    obtain ⟨w, hw, hwl, hwm⟩ :=
      expandStep_some rots rcons hi4 (by omega) hlen hmem
    have hstep : (List.range' i (m + 1)).foldlM (expandStep rots rcons) exp =
        (List.range' (i + 1) m).foldlM (expandStep rots rcons) (exp ++ w) := by
      rw [List.range'_succ, List.foldlM_cons, hw]
      rfl
    obtain ⟨out, ho, hol, hot, hom⟩ := ih (i + 1) (exp ++ w)
      (by omega) (by omega)
      (by simp [hwl]; omega)
      (by intro x hx
          rcases List.mem_append.mp hx with h | h
          · exact hmem x h
          · exact hwm x h)
    refine ⟨out, by rw [hstep]; exact ho, by simp [hol, hwl]; omega, ?_, hom⟩
    rw [hot, List.take_append_of_le_length (by omega)]

lemma custom_key_expansion_some (rots rcons : List Nat) {key : List Nat}
    (hlen : 16 ≤ key.length) (hmem : ∀ b ∈ key, b < 256) :
    ∃ out, custom_key_expansion rots rcons key = some out ∧
      out.length = key.length + 160 ∧ out.take 16 = key.take 16 ∧
      ∀ x ∈ out, x < 256 :=
  expand_fold_some rots rcons 40 4 key (by omega) (by omega) (by omega) hmem

lemma keyScheduleCore_length (rots rcons : List Nat) {temp0 t : List Nat}
    {rn : Nat} (h : keyScheduleCore rots rcons temp0 rn = some t) :
    t.length = temp0.length := by
  unfold keyScheduleCore at h
  cases hs : sub_word (rot_word temp0
      (if rn < rots.length then rots.getD rn 0 else 1)) with
  | none => rw [hs] at h; exact absurd h (by simp)
  | some t2 =>
    rw [hs] at h
    have hl2 : t2.length = temp0.length := by
      rw [sub_word_length hs, rot_word_length]
    cases hR : RCON[rn]? with
    | none => rw [hR] at h; exact absurd h (by simp)
    | some rb =>
      rw [hR] at h
      match t2, hl2, h with
      | [], hl2, h => exact absurd h (by simp)
      | t0 :: rest, hl2, h =>
        simp only [Option.some.injEq] at h
        subst h
        simpa using hl2

lemma expandStep_four_none (rots rcons : List Nat) {exp : List Nat}
    (hlen : exp.length < 16) : expandStep rots rcons exp 4 = none := by
  unfold expandStep
  rw [if_pos (by norm_num)]
  have htshort : ((exp.drop ((4 - 1) * 4)).take 4).length < 4 := by
    simp; omega
  cases hc : keyScheduleCore rots rcons ((exp.drop ((4 - 1) * 4)).take 4)
      (4 / 4 - 1) with
  | none => rfl
  | some t =>
    have := keyScheduleCore_length rots rcons hc
    dsimp only
    rw [new_word_none_left _ (by omega)]

lemma custom_key_expansion_short (rots rcons : List Nat) {key : List Nat}
    (hlen : key.length < 16) :
    custom_key_expansion rots rcons key = none := by
  unfold custom_key_expansion
  rw [show (40 : Nat) = 39 + 1 from rfl, List.range'_succ, List.foldlM_cons,
    expandStep_four_none rots rcons hlen]
  rfl

lemma foldlM_congr_mem {l : List Nat} {f g : List Nat → Nat → Option (List Nat)}
    (h : ∀ i ∈ l, ∀ b, f b i = g b i) :
    ∀ b, l.foldlM f b = l.foldlM g b := by
  induction l with
  | nil => intro b; rfl
  | cons a t ih =>
    intro b
    rw [List.foldlM_cons, List.foldlM_cons, h a (List.mem_cons_self _ _) b]
    cases g b a with
    | none => rfl
    | some b1 =>
      simp only [Option.bind_eq_bind, Option.some_bind]
      exact ih (fun i hi => h i (List.mem_cons_of_mem _ hi)) b1

lemma padParam_eq (l : List Nat) {rn : Nat} (hrn : rn < 10) :
    (if rn < (padTo10 l).length then (padTo10 l).getD rn 0 else 1) =
    (if rn < l.length then l.getD rn 0 else 1) := by
  by_cases h : rn < l.length
  · rw [if_pos h, if_pos (by simp [padTo10]; omega)]
    exact List.getD_append _ _ _ _ h
  · rw [if_neg h, if_pos (by simp [padTo10]; omega)]
    unfold padTo10
    rw [List.getD_append_right _ _ _ _ (by omega)]
    have hlt : rn - l.length < 10 - l.length := by omega
    simp [List.getD, List.getElem?_replicate, hlt]

lemma keyScheduleCore_pad (rots rcons : List Nat) (temp0 : List Nat)
    {rn : Nat} (hrn : rn < 10) :
    keyScheduleCore (padTo10 rots) (padTo10 rcons) temp0 rn =
    keyScheduleCore rots rcons temp0 rn := by
  unfold keyScheduleCore
  simp only [padParam_eq rots hrn, padParam_eq rcons hrn]

lemma expandStep_pad (rots rcons : List Nat) (exp : List Nat) {i : Nat}
    (hi : i ∈ List.range' 4 40) :
    expandStep (padTo10 rots) (padTo10 rcons) exp i =
    expandStep rots rcons exp i := by
  have hir : 4 ≤ i ∧ i < 44 := List.mem_range'_1.mp hi
  unfold expandStep
  by_cases hmod : i % 4 = 0
  · simp only [if_pos hmod, keyScheduleCore_pad rots rcons _
      (show i / 4 - 1 < 10 by omega)]
  · simp only [if_neg hmod]

lemma ones_param (rn : Nat) :
    (if rn < ones10.length then ones10.getD rn 0 else 1) = 1 := by
  by_cases h : rn < ones10.length
  · rw [if_pos h]
    have h10 : rn < 10 := by simpa [ones10] using h
    simp [ones10, List.getD, List.getElem?_replicate, h10]
    interval_cases rn <;> rfl
  · rw [if_neg h]

lemma keyScheduleCore_ones (temp0 : List Nat) (rn : Nat) :
    keyScheduleCore ones10 ones10 temp0 rn = stdRound temp0 rn := by
  unfold keyScheduleCore stdRound
  simp only [ones_param]
  cases hs : sub_word (rot_word temp0 1) with
  | none => rfl
  | some t2 =>
    cases hR : RCON[rn]? with
    | none => rfl
    | some rb =>
      match t2 with
      | [] => rfl
      | t0 :: rest =>
        have hrb : rb < 256 := RCON_mem_lt rb (List.getElem?_mem hR)
        simp [Nat.mod_eq_of_lt hrb]

lemma expandStep_ones (exp : List Nat) (i : Nat) :
    expandStep ones10 ones10 exp i = stdStep exp i := by
  unfold expandStep stdStep
  by_cases hmod : i % 4 = 0
  · simp only [if_pos hmod, keyScheduleCore_ones]
  · simp only [if_neg hmod]

/-- C1: with the neutral parameters `rotations = [1]*10` and
`rconMultipliers = [1]*10`, `custom_key_expansion` computes exactly the
standard AES-128 key-schedule expansion (equality with an independently
written standard expansion, for every key), and in particular on the key
`00 01 02 ... 0f` it reproduces the published standard expansion vector. -/
theorem C1_neutral_params_give_standard_expansion :
    (∀ key : List Nat,
      custom_key_expansion ones10 ones10 key = aes128_key_expansion_spec key) ∧
    custom_key_expansion ones10 ones10 (List.range 16) =
      some publishedExpansion := by
  constructor
  · intro key
    unfold custom_key_expansion aes128_key_expansion_spec
    exact foldlM_congr_mem (fun i _ b => expandStep_ones b i) key
  · decide

/-- C2: for every 16-byte key and every pair of length-10 parameter arrays,
the expansion returns exactly 176 bytes whose first 16 bytes are the key. -/
theorem C2_expansion_length_and_key_prefix (key rots rcons : List Nat)
    (hkey : key.length = 16) (hbytes : ∀ b ∈ key, b < 256)
    (_hrots : rots.length = 10) (_hrcons : rcons.length = 10) :
    ∃ out, custom_key_expansion rots rcons key = some out ∧
      out.length = 176 ∧ out.take 16 = key := by
  obtain ⟨out, ho, hol, hot, _⟩ :=
    custom_key_expansion_some rots rcons (by omega) hbytes
  exact ⟨out, ho, by omega, by rw [hot, List.take_of_length_le (by omega)]⟩

/-- Witness for C2 at the key `00 01 ... 0f` with the neutral parameters. -/
theorem C2_expansion_length_and_key_prefix_witness :
    ∃ out, custom_key_expansion ones10 ones10 (List.range 16) = some out ∧
      out.length = 176 ∧ out.take 16 = List.range 16 :=
  C2_expansion_length_and_key_prefix (List.range 16) ones10 ones10
    (by decide) (by decide) (by decide) (by decide)

/-- C3 counterexample: the claim says every key of length ≠ 16 makes the
expansion fail, but a 20-byte key completes normally (no length check exists
in `custom_key_expansion`), returning 180 bytes. -/
theorem C3_counterexample_long_key_succeeds :
    (custom_key_expansion ones10 ones10 (List.range 20)).isSome = true ∧
    ((custom_key_expansion ones10 ones10 (List.range 20)).getD []).length =
      180 := by
  constructor
  · decide
  · decide

/-- C3 (amended): the expansion has no key-length validation and never raises
an `InvalidKeyLength` error.  For keys shorter than 16 bytes it aborts with a
Python `IndexError` (modelled as `none`); for keys of 16 bytes or more it
completes normally with `keyLength + 160` bytes. -/
theorem C3_amended_no_length_validation :
    (∀ rots rcons key : List Nat, key.length < 16 →
      custom_key_expansion rots rcons key = none) ∧
    (∀ rots rcons key : List Nat, 16 ≤ key.length → (∀ b ∈ key, b < 256) →
      ∃ out, custom_key_expansion rots rcons key = some out ∧
        out.length = key.length + 160) := by
  constructor
  · intro rots rcons key hlen
    exact custom_key_expansion_short rots rcons hlen
  · intro rots rcons key hlen hbytes
    obtain ⟨out, ho, hol, _, _⟩ :=
      custom_key_expansion_some rots rcons hlen hbytes
    exact ⟨out, ho, hol⟩

/-- Witness for C3 (amended): a 3-byte key fails, a 20-byte key succeeds with
180 bytes. -/
theorem C3_amended_no_length_validation_witness :
    custom_key_expansion ones10 ones10 [0, 1, 2] = none ∧
    ∃ out, custom_key_expansion ones10 ones10 (List.range 20) = some out ∧
      out.length = 20 + 160 :=
  ⟨C3_amended_no_length_validation.1 ones10 ones10 [0, 1, 2] (by decide),
   C3_amended_no_length_validation.2 ones10 ones10 (List.range 20)
     (by decide) (by decide)⟩

/-- C4: for every plaintext, every 16-byte key, and any two parameter
configurations, `encrypt` produces identical ciphertext — the chromosome's
parameters never influence the ciphertext, only the stored expanded
schedule (two-run noninterference over `encrypt`). -/
theorem C4_parameters_never_affect_ciphertext
    (ext : List Nat → List Nat → List Nat)
    (rots1 rcons1 rots2 rcons2 plaintext key : List Nat)
    (hkey : key.length = 16) (hbytes : ∀ b ∈ key, b < 256) :
    Option.map Prod.fst (encrypt ext rots1 rcons1 plaintext key) =
    Option.map Prod.fst (encrypt ext rots2 rcons2 plaintext key) := by
  have hk16 : 16 ≤ key.length := by omega
  obtain ⟨o1, h1, _, _, _⟩ :=
    custom_key_expansion_some rots1 rcons1 hk16 hbytes
  obtain ⟨o2, h2, _, _, _⟩ :=
    custom_key_expansion_some rots2 rcons2 hk16 hbytes
  unfold encrypt
  rw [h1, h2]
  rfl

/-- Witness for C4: concrete external primitive, two distinct parameter
pairs, a concrete plaintext and the key `00 01 ... 0f`. -/
theorem C4_parameters_never_affect_ciphertext_witness :
    Option.map Prod.fst
      (encrypt (fun p _ => p) ones10 ones10 [104, 105] (List.range 16)) =
    Option.map Prod.fst
      (encrypt (fun p _ => p) (List.replicate 10 2) (List.replicate 10 3)
        [104, 105] (List.range 16)) :=
  C4_parameters_never_affect_ciphertext (fun p _ => p) ones10 ones10
    (List.replicate 10 2) (List.replicate 10 3) [104, 105] (List.range 16)
    (by decide) (by decide)

/-- C10: when a parameter array is shorter than the round index requires, the
expansion substitutes the neutral default 1 for the missing rotations and
multipliers — it behaves exactly as if the arrays were padded with 1 up to
length 10 — and completes normally rather than failing. -/
theorem C10_missing_params_default_to_one (rots rcons key : List Nat)
    (hkey : key.length = 16) (hbytes : ∀ b ∈ key, b < 256) :
    custom_key_expansion rots rcons key =
      custom_key_expansion (padTo10 rots) (padTo10 rcons) key ∧
    (custom_key_expansion rots rcons key).isSome = true := by
  constructor
  · unfold custom_key_expansion
    exact (foldlM_congr_mem
      (fun i hi b => (expandStep_pad rots rcons b hi).symm) key).symm ▸ rfl
  · have hk16 : 16 ≤ key.length := by omega
    obtain ⟨out, ho, _, _, _⟩ :=
      custom_key_expansion_some rots rcons hk16 hbytes
    rw [ho]
    rfl

/-- Witness for C10: a 1-entry rotation array and an empty multiplier array
on the key `00 01 ... 0f`. -/
theorem C10_missing_params_default_to_one_witness :
    custom_key_expansion [2] [] (List.range 16) =
      custom_key_expansion (padTo10 [2]) (padTo10 []) (List.range 16) ∧
    (custom_key_expansion [2] [] (List.range 16)).isSome = true :=
  C10_missing_params_default_to_one [2] [] (List.range 16)
    (by decide) (by decide)

/-!
The genetic-algorithm engine (`ga_optimizer.py`).

Nondeterminism is made explicit: the Python `random` module becomes a
`RandSrc` — two streams indexed by one shared call counter `k` that is
threaded through every operation in program order (`floats k` models a
`random.random()` draw, `nats k` drives `random.randint` / `random.sample`
index choices; any concrete behaviour of the library is realizable by a
choice of streams).  `evaluate_fitness` performs external measurements
(timing, avalanche trials on random plaintexts), so it becomes an oracle
`fit : Nat → Chromosome → ℚ` applied at an evaluation counter `e` that
advances once per evaluated chromosome, in program order.  Python floats
are modelled as `ℚ`.
-/

/-- `KeyScheduleChromosome` (ga_optimizer.py, lines 13-43).  The `metrics`
dictionary is never read by the algorithm's control flow and is omitted. -/
structure Chromosome where
  rotations : List Nat
  rcon_multipliers : List Nat
  fitness : ℚ
deriving DecidableEq, Repr

/-- The explicit random source (see module comment). -/
structure RandSrc where
  floats : Nat → ℚ
  nats : Nat → Nat

/-- `random.randint(1, 3)`: any value in `{1, 2, 3}` as driven by the
stream. -/
def randint13 (src : RandSrc) (k : Nat) : Nat := 1 + src.nats k % 3

/-- `[random.randint(1, 3) for _ in range(n)]`: draw `n` genes in order,
returning them with the advanced counter. -/
def drawGenes (src : RandSrc) : Nat → Nat → List Nat × Nat
  | 0, k => ([], k)
  | n + 1, k =>
    (randint13 src k :: (drawGenes src n (k + 1)).1, (drawGenes src n (k + 1)).2)

/-- `KeyScheduleChromosome()` with no arguments (ga_optimizer.py, lines
19-32): random initialization of both gene arrays, `fitness = 0.0`. -/
def randomChromosome (src : RandSrc) (k : Nat) : Chromosome × Nat :=
  ({ rotations := (drawGenes src 10 k).1
     rcon_multipliers := (drawGenes src 10 (drawGenes src 10 k).2).1
     fitness := 0 },
   (drawGenes src 10 (drawGenes src 10 k).2).2)

/-- The fixed neutral baseline `KeyScheduleChromosome([1]*10, [1]*10)`
(ga_optimizer.py, lines 86-89). -/
def standardChromosome : Chromosome :=
  { rotations := List.replicate 10 1
    rcon_multipliers := List.replicate 10 1
    fitness := 0 }

/-- The `population_size - 1` random chromosomes of
`initialize_population`. -/
def randomChromosomes (src : RandSrc) : Nat → Nat → List Chromosome × Nat
  | 0, k => ([], k)
  | n + 1, k =>
    ((randomChromosome src k).1 ::
      (randomChromosomes src n (randomChromosome src k).2).1,
     (randomChromosomes src n (randomChromosome src k).2).2)

/-- `GeneticAlgorithm.initialize_population` (ga_optimizer.py, lines 81-97):
slot 0 is the neutral baseline, the remaining `population_size - 1` slots are
random chromosomes. -/
def initialize_population (src : RandSrc) (population_size k : Nat) :
    List Chromosome × Nat :=
  (standardChromosome :: (randomChromosomes src (population_size - 1) k).1,
   (randomChromosomes src (population_size - 1) k).2)

/-- The GA configuration (constructor arguments of `GeneticAlgorithm`,
ga_optimizer.py, lines 51-66). -/
structure GAConfig where
  population_size : Nat
  crossover_rate : ℚ
  mutation_rate : ℚ
  num_generations : Nat
  elitism_count : Nat
deriving DecidableEq, Repr

/-- Python `max(tournament, key=lambda x: x.fitness)` over the 3-element
sample: keeps the first element, replacing it only on strictly greater
fitness. -/
def tournament_winner (c1 c2 c3 : Chromosome) : Chromosome :=
  if c3.fitness > (if c2.fitness > c1.fitness then c2 else c1).fitness then c3
  else if c2.fitness > c1.fitness then c2 else c1

/-- `GeneticAlgorithm.selection_tournament` (ga_optimizer.py, lines 154-158):
`random.sample(population, 3)` raises `ValueError` (`none`) when the
population has fewer than 3 members; otherwise three distinct members are
drawn without replacement (successive stream-driven index picks from the
remaining list) and the fittest (first maximal) wins. -/
def selection_tournament (src : RandSrc) (pop : List Chromosome) (k : Nat) :
    Option (Chromosome × Nat) :=
  if 3 ≤ pop.length then
    let i1 := src.nats k % pop.length
    let c1 := pop.getD i1 standardChromosome
    let rest1 := pop.eraseIdx i1
    let i2 := src.nats (k + 1) % rest1.length
    let c2 := rest1.getD i2 standardChromosome
    let rest2 := rest1.eraseIdx i2
    let i3 := src.nats (k + 2) % rest2.length
    let c3 := rest2.getD i3 standardChromosome
    some (tournament_winner c1 c2 c3, k + 3)
  else none

/-- `GeneticAlgorithm.crossover_single_point` (ga_optimizer.py, lines
160-178).  `random.random() > crossover_rate` returns deep copies of both
parents; otherwise `point = random.randint(1, 9)` cuts both gene arrays of
both parents at the same position, and `KeyScheduleChromosome(rot, rcon)`
gives each child `fitness = 0`. -/
def crossover_single_point (src : RandSrc) (crossover_rate : ℚ)
    (p1 p2 : Chromosome) (k : Nat) : (Chromosome × Chromosome) × Nat :=
  if src.floats k > crossover_rate then ((p1, p2), k + 1)
  else
    let point := 1 + src.nats (k + 1) % 9
    let child1 : Chromosome :=
      { rotations := p1.rotations.take point ++ p2.rotations.drop point
        rcon_multipliers :=
          p1.rcon_multipliers.take point ++ p2.rcon_multipliers.drop point
        fitness := 0 }
    let child2 : Chromosome :=
      { rotations := p2.rotations.take point ++ p1.rotations.drop point
        rcon_multipliers :=
          p2.rcon_multipliers.take point ++ p1.rcon_multipliers.drop point
        fitness := 0 }
    ((child1, child2), k + 2)

/-- The per-gene loop of `GeneticAlgorithm.mutate` (ga_optimizer.py, lines
183-190): for each gene one `random.random()` draw; when it is below the
mutation rate, one further `random.randint(1, 3)` draw replaces the gene. -/
def mutateGenes (src : RandSrc) (mutation_rate : ℚ) :
    List Nat → Nat → List Nat × Nat
  | [], k => ([], k)
  | g :: gs, k =>
    if src.floats k < mutation_rate then
      (randint13 src (k + 1) :: (mutateGenes src mutation_rate gs (k + 2)).1,
       (mutateGenes src mutation_rate gs (k + 2)).2)
    else
      (g :: (mutateGenes src mutation_rate gs (k + 1)).1,
       (mutateGenes src mutation_rate gs (k + 1)).2)

/-- `GeneticAlgorithm.mutate` (ga_optimizer.py, lines 180-192): mutate the
rotation genes, then the multiplier genes; the fitness field is untouched. -/
def mutate (src : RandSrc) (mutation_rate : ℚ) (c : Chromosome) (k : Nat) :
    Chromosome × Nat :=
  ({ c with
      rotations := (mutateGenes src mutation_rate c.rotations k).1
      rcon_multipliers :=
        (mutateGenes src mutation_rate c.rcon_multipliers
          (mutateGenes src mutation_rate c.rotations k).2).1 },
   (mutateGenes src mutation_rate c.rcon_multipliers
     (mutateGenes src mutation_rate c.rotations k).2).2)

/-- `chromosome.fitness = self.evaluate_fitness(chromosome)` applied to each
member of a list in order, threading the evaluation counter `e` (the oracle
`fit` stands for the external measurement in `evaluate_fitness`,
ga_optimizer.py, lines 99-152). -/
def evalPopulation (fit : Nat → Chromosome → ℚ) :
    List Chromosome → Nat → List Chromosome × Nat
  | [], e => ([], e)
  | c :: cs, e =>
    ({ c with fitness := fit e c } :: (evalPopulation fit cs (e + 1)).1,
     (evalPopulation fit cs (e + 1)).2)

/-- One body pass of the offspring `while` loop, after parent selection
(ga_optimizer.py, lines 242-246): crossover, then mutate `child1`, then
mutate `child2`, threading the random counter in program order. -/
def breedPair (src : RandSrc) (crossover_rate mutation_rate : ℚ)
    (p1 p2 : Chromosome) (k : Nat) : (Chromosome × Chromosome) × Nat :=
  ((((mutate src mutation_rate
        (crossover_single_point src crossover_rate p1 p2 k).1.1
        (crossover_single_point src crossover_rate p1 p2 k).2).1,
     (mutate src mutation_rate
        (crossover_single_point src crossover_rate p1 p2 k).1.2
        (mutate src mutation_rate
          (crossover_single_point src crossover_rate p1 p2 k).1.1
          (crossover_single_point src crossover_rate p1 p2 k).2).2).1)),
   (mutate src mutation_rate
      (crossover_single_point src crossover_rate p1 p2 k).1.2
      (mutate src mutation_rate
        (crossover_single_point src crossover_rate p1 p2 k).1.1
        (crossover_single_point src crossover_rate p1 p2 k).2).2).2)

/-- The offspring `while` loop of `evolve` (ga_optimizer.py, lines 236-251),
by the number of free slots below `population_size`: each pass selects two
parents by tournament, crosses them, mutates both children, appends the
first child and — only if a slot remains — the second (the second child is
built and mutated even when it is then dropped, as in the source). -/
def makeChildren (src : RandSrc) (crossover_rate mutation_rate : ℚ)
    (pop : List Chromosome) : Nat → Nat → Option (List Chromosome × Nat)
  | 0, k => some ([], k)
  | 1, k =>
    match selection_tournament src pop k with
    | none => none
    | some (p1, k1) =>
      match selection_tournament src pop k1 with
      | none => none
      | some (p2, k2) =>
        some ([(breedPair src crossover_rate mutation_rate p1 p2 k2).1.1],
          (breedPair src crossover_rate mutation_rate p1 p2 k2).2)
  | slots + 2, k =>
    match selection_tournament src pop k with
    | none => none
    | some (p1, k1) =>
      match selection_tournament src pop k1 with
      | none => none
      | some (p2, k2) =>
        match makeChildren src crossover_rate mutation_rate pop slots
            (breedPair src crossover_rate mutation_rate p1 p2 k2).2 with
        | none => none
        | some (rest, k6) =>
          some ((breedPair src crossover_rate mutation_rate p1 p2 k2).1.1 ::
                (breedPair src crossover_rate mutation_rate p1 p2 k2).1.2 ::
                rest, k6)

/-- Descending-by-fitness ordering used by
`population.sort(key=lambda x: x.fitness, reverse=True)`. -/
def fitGE (a b : Chromosome) : Prop := b.fitness ≤ a.fitness

instance : DecidableRel fitGE := fun a b =>
  inferInstanceAs (Decidable (b.fitness ≤ a.fitness))

instance : IsTotal Chromosome fitGE :=
  ⟨fun a b => le_total b.fitness a.fitness⟩

instance : IsTrans Chromosome fitGE :=
  ⟨fun _ _ _ hab hbc => le_trans hbc hab⟩

/-- `population.sort(key=lambda x: x.fitness, reverse=True)`: a stable
descending sort by fitness (Python's sort is stable; a stable sort is
uniquely determined, so insertion sort models it exactly). -/
def sortPop (pop : List Chromosome) : List Chromosome :=
  List.insertionSort fitGE pop

/-- `np.mean` over the fitness values (ga_optimizer.py, line 216). -/
def ratAvg (l : List ℚ) : ℚ := l.sum / l.length

/-- The mutable state of a `GeneticAlgorithm` object during `evolve`
(`population`, the two history lists, `best_chromosome`), together with the
two oracle counters and a ghost `trace` recording each evaluated population
(the initial one and every `next_generation`) — the trace is used only to
state all-time-best properties and influences nothing. -/
structure GAState where
  population : List Chromosome
  best_fitness_history : List ℚ
  avg_fitness_history : List ℚ
  best_chromosome : Option Chromosome
  trace : List (List Chromosome)
  k : Nat
  e : Nat
deriving DecidableEq, Repr

/-- `next_generation` construction and re-evaluation (ga_optimizer.py, lines
230-255): elites (`population[:elitism_count]`, copied unchanged) followed by
the offspring; then every member of `next_generation[elitism_count:]` gets a
fresh fitness, threading the evaluation counter.  Returns the new population
and the advanced counter. -/
def nextPopulation (fit : Nat → Chromosome → ℚ) (cfg : GAConfig)
    (sorted children : List Chromosome) (e : Nat) : List Chromosome × Nat :=
  ((sorted.take cfg.elitism_count ++ children).take cfg.elitism_count ++
     (evalPopulation fit
       ((sorted.take cfg.elitism_count ++ children).drop cfg.elitism_count)
       e).1,
   (evalPopulation fit
     ((sorted.take cfg.elitism_count ++ children).drop cfg.elitism_count)
     e).2)

/-- One iteration of the `for generation in range(...)` loop of `evolve`
(ga_optimizer.py, lines 208-257): sort; read `population[0].fitness` (an
`IndexError`, i.e. `none`, on an empty population); record best/avg;
update the best-ever snapshot on strict improvement; build and evaluate the
next generation via `makeChildren` and `nextPopulation`. -/
def generation_step (src : RandSrc) (fit : Nat → Chromosome → ℚ)
    (cfg : GAConfig) (st : GAState) : Option GAState :=
  match sortPop st.population with
  | [] => none
  | best :: sortedRest =>
    match makeChildren src cfg.crossover_rate cfg.mutation_rate
        (best :: sortedRest)
        (cfg.population_size -
          ((best :: sortedRest).take cfg.elitism_count).length) st.k with
    | none => none
    | some (children, k1) =>
      some
        { population :=
            (nextPopulation fit cfg (best :: sortedRest) children st.e).1
          best_fitness_history := st.best_fitness_history ++ [best.fitness]
          avg_fitness_history := st.avg_fitness_history ++
            [ratAvg ((best :: sortedRest).map (fun c => c.fitness))]
          best_chromosome :=
            match st.best_chromosome with
            | none => some best
            | some bc =>
              if best.fitness > bc.fitness then some best else some bc
          trace := st.trace ++
            [(nextPopulation fit cfg (best :: sortedRest) children st.e).1]
          k := k1
          e := (nextPopulation fit cfg (best :: sortedRest) children st.e).2 }

/-- Run `n` generation steps, stopping with `none` as soon as one fails. -/
def iterateM (f : GAState → Option GAState) : Nat → GAState → Option GAState
  | 0, st => some st
  | n + 1, st =>
    match f st with
    | none => none
    | some st1 => iterateM f n st1

/-- The state at the top of `evolve`'s generation loop (ga_optimizer.py,
lines 199-205): the initial population, evaluated in order from evaluation
counter 0; empty histories; no best-ever snapshot yet; the ghost trace
starts with the evaluated initial population. -/
def initialState (src : RandSrc) (fit : Nat → Chromosome → ℚ)
    (cfg : GAConfig) : GAState :=
  { population :=
      (evalPopulation fit (initialize_population src cfg.population_size 0).1
        0).1
    best_fitness_history := []
    avg_fitness_history := []
    best_chromosome := none
    trace :=
      [(evalPopulation fit (initialize_population src cfg.population_size 0).1
         0).1]
    k := (initialize_population src cfg.population_size 0).2
    e := (evalPopulation fit (initialize_population src cfg.population_size 0).1
           0).2 }

/-- `GeneticAlgorithm.evolve` (ga_optimizer.py, lines 194-271): initialize
and evaluate the population, run `num_generations` generation steps, then
sort the final population and return `population[0]` — which also
*overwrites* `self.best_chromosome` (line 261).  Result: the returned
chromosome and the final object state. -/
def evolve (src : RandSrc) (fit : Nat → Chromosome → ℚ) (cfg : GAConfig) :
    Option (Chromosome × GAState) :=
  match iterateM (generation_step src fit cfg) cfg.num_generations
      (initialState src fit cfg) with
  | none => none
  | some st =>
    match sortPop st.population with
    | [] => none
    | best :: sortedRest =>
      some (best,
        { st with
            population := best :: sortedRest
            best_chromosome := some best })

lemma sortPop_perm (pop : List Chromosome) : List.Perm (sortPop pop) pop :=
  List.perm_insertionSort fitGE pop

lemma sortPop_sorted (pop : List Chromosome) :
    List.Sorted fitGE (sortPop pop) :=
  List.sorted_insertionSort fitGE pop

lemma sortPop_head_max {pop rest : List Chromosome} {best : Chromosome}
    (hs : sortPop pop = best :: rest) :
    ∀ c ∈ pop, c.fitness ≤ best.fitness := by
  intro c hc
  have hcs : c ∈ best :: rest := by
    rw [← hs]
    exact (sortPop_perm pop).mem_iff.mpr hc
  rcases List.mem_cons.mp hcs with rfl | hr
  · exact le_refl _
  · have hsorted : List.Sorted fitGE (best :: rest) := hs ▸ sortPop_sorted pop
    exact List.rel_of_sorted_cons hsorted c hr

lemma sortPop_head_mem {pop rest : List Chromosome} {best : Chromosome}
    (hs : sortPop pop = best :: rest) : best ∈ pop :=
  (sortPop_perm pop).mem_iff.mp (by rw [hs]; exact List.mem_cons_self _ _)

lemma sortPop_subset {pop : List Chromosome} :
    ∀ c ∈ sortPop pop, c ∈ pop :=
  fun _ hc => (sortPop_perm pop).mem_iff.mp hc

lemma getD_mem {l : List Chromosome} {i : Nat} (h : i < l.length)
    (d : Chromosome) : l.getD i d ∈ l := by
  rw [List.getD_eq_getElem l d h]
  exact l.getElem_mem h

lemma tournament_winner_mem (c1 c2 c3 : Chromosome) :
    tournament_winner c1 c2 c3 = c1 ∨ tournament_winner c1 c2 c3 = c2 ∨
    tournament_winner c1 c2 c3 = c3 := by
  unfold tournament_winner
  by_cases h1 : c2.fitness > c1.fitness
  · rw [if_pos h1]
    by_cases h2 : c3.fitness > c2.fitness
    · rw [if_pos h2]; exact Or.inr (Or.inr rfl)
    · rw [if_neg h2]; exact Or.inr (Or.inl rfl)
  · rw [if_neg h1]
    by_cases h2 : c3.fitness > c1.fitness
    · rw [if_pos h2]; exact Or.inr (Or.inr rfl)
    · rw [if_neg h2]; exact Or.inl rfl

lemma selection_tournament_mem {src : RandSrc} {pop : List Chromosome}
    {k : Nat} {w : Chromosome} {k1 : Nat}
    (h : selection_tournament src pop k = some (w, k1)) : w ∈ pop := by
  unfold selection_tournament at h
  by_cases h3 : 3 ≤ pop.length
  · rw [if_pos h3] at h
    simp only [Option.some.injEq, Prod.mk.injEq] at h
    obtain ⟨hw, -⟩ := h
    have hi1 : src.nats k % pop.length < pop.length :=
      Nat.mod_lt _ (by omega)
    have hrest1 : (pop.eraseIdx (src.nats k % pop.length)).length =
        pop.length - 1 := List.length_eraseIdx_of_lt hi1
    have hi2 : src.nats (k + 1) % (pop.eraseIdx (src.nats k % pop.length)).length <
        (pop.eraseIdx (src.nats k % pop.length)).length := by
      rw [hrest1]; exact Nat.mod_lt _ (by omega)
    have hrest2 : ((pop.eraseIdx (src.nats k % pop.length)).eraseIdx
        (src.nats (k + 1) % (pop.eraseIdx (src.nats k % pop.length)).length)).length =
        (pop.eraseIdx (src.nats k % pop.length)).length - 1 :=
      List.length_eraseIdx_of_lt hi2
    have hi3len : 0 < ((pop.eraseIdx (src.nats k % pop.length)).eraseIdx
        (src.nats (k + 1) %
          (pop.eraseIdx (src.nats k % pop.length)).length)).length := by
      rw [hrest2, hrest1]; omega
    have hm1 : pop.getD (src.nats k % pop.length) standardChromosome ∈ pop :=
      getD_mem hi1 _
    have hm2 : (pop.eraseIdx (src.nats k % pop.length)).getD
        (src.nats (k + 1) % (pop.eraseIdx (src.nats k % pop.length)).length)
        standardChromosome ∈ pop :=
      List.eraseIdx_subset _ _ (getD_mem hi2 _)
    have hm3 : ((pop.eraseIdx (src.nats k % pop.length)).eraseIdx
        (src.nats (k + 1) % (pop.eraseIdx (src.nats k % pop.length)).length)).getD
        (src.nats (k + 2) %
          ((pop.eraseIdx (src.nats k % pop.length)).eraseIdx
            (src.nats (k + 1) %
              (pop.eraseIdx (src.nats k % pop.length)).length)).length)
        standardChromosome ∈ pop :=
      List.eraseIdx_subset _ _ (List.eraseIdx_subset _ _
        (getD_mem (Nat.mod_lt _ hi3len) _))
    rcases tournament_winner_mem (pop.getD (src.nats k % pop.length)
        standardChromosome) _ _ with hq | hq | hq <;>
      rw [← hw, hq] <;> first
      | exact hm1
      | exact hm2
      | exact hm3
  · rw [if_neg h3] at h
    exact absurd h (by simp)

/-- A gene in the domain `{1, 2, 3}`. -/
def GeneOK (g : Nat) : Prop := g = 1 ∨ g = 2 ∨ g = 3

instance : DecidablePred GeneOK := fun g =>
  inferInstanceAs (Decidable (g = 1 ∨ g = 2 ∨ g = 3))

/-- The chromosome invariant: both gene arrays have length exactly 10 and
every gene lies in `{1, 2, 3}`. -/
def ChromOK (c : Chromosome) : Prop :=
  c.rotations.length = 10 ∧ c.rcon_multipliers.length = 10 ∧
  (∀ g ∈ c.rotations, GeneOK g) ∧ ∀ g ∈ c.rcon_multipliers, GeneOK g

instance : DecidablePred ChromOK := fun c =>
  inferInstanceAs (Decidable (c.rotations.length = 10 ∧
    c.rcon_multipliers.length = 10 ∧ (∀ g ∈ c.rotations, GeneOK g) ∧
    ∀ g ∈ c.rcon_multipliers, GeneOK g))

lemma ChromOK_congr {c1 c : Chromosome} (h1 : c1.rotations = c.rotations)
    (h2 : c1.rcon_multipliers = c.rcon_multipliers) (h : ChromOK c) :
    ChromOK c1 := by
  obtain ⟨a, b, d, e⟩ := h
  exact ⟨h1 ▸ a, h2 ▸ b, h1 ▸ d, h2 ▸ e⟩

lemma randint13_ok (src : RandSrc) (k : Nat) : GeneOK (randint13 src k) := by
  unfold randint13 GeneOK
  omega

lemma drawGenes_ok (src : RandSrc) :
    ∀ n k, (drawGenes src n k).1.length = n ∧
      ∀ g ∈ (drawGenes src n k).1, GeneOK g := by
  intro n
  induction n with
  | zero => intro k; exact ⟨rfl, by simp [drawGenes]⟩
  | succ m ih =>
    intro k
    refine ⟨by simp [drawGenes, (ih (k + 1)).1], ?_⟩
    intro g hg
    rcases List.mem_cons.mp (by simpa [drawGenes] using hg) with rfl | h
    · exact randint13_ok src k
    · exact (ih (k + 1)).2 g h

lemma randomChromosome_ok (src : RandSrc) (k : Nat) :
    ChromOK (randomChromosome src k).1 :=
  ⟨(drawGenes_ok src 10 _).1, (drawGenes_ok src 10 _).1,
   (drawGenes_ok src 10 _).2, (drawGenes_ok src 10 _).2⟩

lemma standardChromosome_ok : ChromOK standardChromosome := by decide

lemma initialize_population_ok (src : RandSrc) (n k : Nat) :
    ∀ c ∈ (initialize_population src n k).1, ChromOK c := by
  have hrand : ∀ m j, ∀ c ∈ (randomChromosomes src m j).1, ChromOK c := by
    intro m
    induction m with
    | zero => intro j c hc; simp [randomChromosomes] at hc
    | succ mm ih =>
      intro j c hc
      rcases List.mem_cons.mp (by simpa [randomChromosomes] using hc) with
        rfl | h
      · exact randomChromosome_ok src j
      · exact ih _ c h
  intro c hc
  rcases List.mem_cons.mp (by simpa [initialize_population] using hc) with
    rfl | h
  · exact standardChromosome_ok
  · exact hrand _ _ c h

lemma crossover_ok {src : RandSrc} {rate : ℚ} {p1 p2 : Chromosome} {k : Nat}
    (h1 : ChromOK p1) (h2 : ChromOK p2) :
    ChromOK (crossover_single_point src rate p1 p2 k).1.1 ∧
    ChromOK (crossover_single_point src rate p1 p2 k).1.2 := by
  obtain ⟨hl1, hl1r, hg1, hg1r⟩ := h1
  obtain ⟨hl2, hl2r, hg2, hg2r⟩ := h2
  have hpt : 1 + src.nats (k + 1) % 9 ≤ 9 := by
    have := Nat.mod_lt (src.nats (k + 1)) (show 0 < 9 by norm_num)
    omega
  simp only [crossover_single_point]
  by_cases hc : src.floats k > rate
  · rw [if_pos hc]
    exact ⟨⟨hl1, hl1r, hg1, hg1r⟩, hl2, hl2r, hg2, hg2r⟩
  · rw [if_neg hc]
    have hmem : ∀ (a b : List Nat), (∀ g ∈ a, GeneOK g) → (∀ g ∈ b, GeneOK g) →
        ∀ g ∈ a.take (1 + src.nats (k + 1) % 9) ++
          b.drop (1 + src.nats (k + 1) % 9), GeneOK g := by
      intro a b ha hb g hg
      rcases List.mem_append.mp hg with hx | hx
      · exact ha g (List.take_subset _ _ hx)
      · exact hb g (List.drop_subset _ _ hx)
    refine ⟨⟨?_, ?_, hmem _ _ hg1 hg2, hmem _ _ hg1r hg2r⟩,
            ⟨?_, ?_, hmem _ _ hg2 hg1, hmem _ _ hg2r hg1r⟩⟩ <;>
      simp [List.length_take, List.length_drop, hl1, hl1r, hl2, hl2r] <;>
      omega

lemma mutateGenes_ok (src : RandSrc) (rate : ℚ) :
    ∀ (l : List Nat) (k : Nat), (∀ g ∈ l, GeneOK g) →
      (mutateGenes src rate l k).1.length = l.length ∧
      ∀ g ∈ (mutateGenes src rate l k).1, GeneOK g := by
  intro l
  induction l with
  | nil => intro k _; exact ⟨rfl, by simp [mutateGenes]⟩
  | cons g gs ih =>
    intro k h
    have hgs : ∀ x ∈ gs, GeneOK x := fun x hx =>
      h x (List.mem_cons_of_mem _ hx)
    unfold mutateGenes
    by_cases hc : src.floats k < rate
    · rw [if_pos hc]
      refine ⟨by simp [(ih (k + 2) hgs).1], ?_⟩
      intro x hx
      rcases List.mem_cons.mp (by simpa using hx) with rfl | hxx
      · exact randint13_ok src (k + 1)
      · exact (ih (k + 2) hgs).2 x hxx
    · rw [if_neg hc]
      refine ⟨by simp [(ih (k + 1) hgs).1], ?_⟩
      intro x hx
      rcases List.mem_cons.mp (by simpa using hx) with rfl | hxx
      · exact h x (List.mem_cons_self _ _)
      · exact (ih (k + 1) hgs).2 x hxx

lemma mutate_ok {src : RandSrc} {rate : ℚ} {c : Chromosome} {k : Nat}
    (h : ChromOK c) : ChromOK (mutate src rate c k).1 := by
  obtain ⟨hl, hlr, hg, hgr⟩ := h
  refine ⟨?_, ?_, ?_, ?_⟩
  · rw [show (mutate src rate c k).1.rotations =
      (mutateGenes src rate c.rotations k).1 from rfl,
      (mutateGenes_ok src rate c.rotations k hg).1, hl]
  · rw [show (mutate src rate c k).1.rcon_multipliers =
      (mutateGenes src rate c.rcon_multipliers
        (mutateGenes src rate c.rotations k).2).1 from rfl,
      (mutateGenes_ok src rate c.rcon_multipliers _ hgr).1, hlr]
  · exact (mutateGenes_ok src rate c.rotations k hg).2
  · exact (mutateGenes_ok src rate c.rcon_multipliers _ hgr).2

lemma breedPair_ok {src : RandSrc} {cr mr : ℚ} {p1 p2 : Chromosome} {k : Nat}
    (h1 : ChromOK p1) (h2 : ChromOK p2) :
    ChromOK (breedPair src cr mr p1 p2 k).1.1 ∧
    ChromOK (breedPair src cr mr p1 p2 k).1.2 :=
  ⟨mutate_ok (crossover_ok h1 h2).1, mutate_ok (crossover_ok h1 h2).2⟩

lemma makeChildren_ok (src : RandSrc) (cr mr : ℚ) (pop : List Chromosome)
    (hpop : ∀ c ∈ pop, ChromOK c) :
    ∀ (slots k : Nat) (cs : List Chromosome) (k1 : Nat),
      makeChildren src cr mr pop slots k = some (cs, k1) →
      ∀ c ∈ cs, ChromOK c := by
  intro slots
  induction slots using Nat.strong_induction_on with
  | _ slots ih =>
    match slots with
    | 0 =>
      intro k cs k1 h c hc
      unfold makeChildren at h
      simp only [Option.some.injEq, Prod.mk.injEq] at h
      obtain ⟨rfl, -⟩ := h
      simp at hc
    | 1 =>
      intro k cs k1 h c hc
      unfold makeChildren at h
      split at h
      · exact absurd h (by simp)
      next p1 k1' hs1 =>
        split at h
        · exact absurd h (by simp)
        next p2 k2' hs2 =>
          simp only [Option.some.injEq, Prod.mk.injEq] at h
          obtain ⟨rfl, -⟩ := h
          have hp1 : ChromOK p1 := hpop p1 (selection_tournament_mem hs1)
          have hp2 : ChromOK p2 := hpop p2 (selection_tournament_mem hs2)
          rcases List.mem_cons.mp hc with rfl | hrest
          · exact (breedPair_ok hp1 hp2).1
          · simp at hrest
    | slots + 2 =>
      intro k cs k1 h c hc
      unfold makeChildren at h
      split at h
      · exact absurd h (by simp)
      next p1 k1' hs1 =>
        split at h
        · exact absurd h (by simp)
        next p2 k2' hs2 =>
          split at h
          · exact absurd h (by simp)
          next rest k6 hmk =>
            simp only [Option.some.injEq, Prod.mk.injEq] at h
            obtain ⟨rfl, -⟩ := h
            have hp1 : ChromOK p1 := hpop p1 (selection_tournament_mem hs1)
            have hp2 : ChromOK p2 := hpop p2 (selection_tournament_mem hs2)
            rcases List.mem_cons.mp hc with rfl | hc2
            · exact (breedPair_ok hp1 hp2).1
            · rcases List.mem_cons.mp hc2 with rfl | hc3
              · exact (breedPair_ok hp1 hp2).2
              · exact ih slots (by omega) _ _ _ hmk c hc3

lemma evalPopulation_genes (fit : Nat → Chromosome → ℚ) :
    ∀ (l : List Chromosome) (e : Nat), ∀ c1 ∈ (evalPopulation fit l e).1,
      ∃ c ∈ l, c1.rotations = c.rotations ∧
        c1.rcon_multipliers = c.rcon_multipliers := by
  intro l
  induction l with
  | nil => intro e c1 hc1; simp [evalPopulation] at hc1
  | cons c cs ih =>
    intro e c1 hc1
    rcases List.mem_cons.mp (by simpa [evalPopulation] using hc1) with rfl | h
    · exact ⟨c, List.mem_cons_self _ _, rfl, rfl⟩
    · obtain ⟨d, hd, he⟩ := ih (e + 1) c1 h
      exact ⟨d, List.mem_cons_of_mem _ hd, he⟩

lemma nextPopulation_genes {fit : Nat → Chromosome → ℚ} {cfg : GAConfig}
    {sorted children : List Chromosome} {e : Nat} :
    ∀ c1 ∈ (nextPopulation fit cfg sorted children e).1,
      ∃ c ∈ sorted.take cfg.elitism_count ++ children,
        c1.rotations = c.rotations ∧
        c1.rcon_multipliers = c.rcon_multipliers := by
  intro c1 hc1
  unfold nextPopulation at hc1
  rcases List.mem_append.mp hc1 with h | h
  · exact ⟨c1, List.take_subset _ _ h, rfl, rfl⟩
  · obtain ⟨d, hd, he⟩ := evalPopulation_genes fit _ _ c1 h
    exact ⟨d, List.drop_subset _ _ hd, he⟩

lemma nextPopulation_head (fit : Nat → Chromosome → ℚ) (cfg : GAConfig)
    (best : Chromosome) (rest children : List Chromosome) (e : Nat)
    (helit : 1 ≤ cfg.elitism_count) :
    ∃ t, (nextPopulation fit cfg (best :: rest) children e).1 = best :: t := by
  obtain ⟨m, hm⟩ : ∃ m, cfg.elitism_count = m + 1 :=
    ⟨cfg.elitism_count - 1, by omega⟩
  unfold nextPopulation
  rw [hm, List.take_succ_cons, List.cons_append, List.take_succ_cons,
    List.cons_append]
  exact ⟨_, rfl⟩

/-- Invariant behind C6: the recorded history is non-decreasing and every
entry is bounded by some member of the current population. -/
def In6 (st : GAState) : Prop :=
  List.Chain' (· ≤ ·) st.best_fitness_history ∧
  ∀ h ∈ st.best_fitness_history, ∃ c ∈ st.population, h ≤ c.fitness

/-- Invariant behind C5 (amended): every fitness ever observed in the trace
is bounded by some member of the current population, and the current
population is itself in the trace. -/
def In5 (st : GAState) : Prop :=
  (∀ p ∈ st.trace, ∀ c ∈ p, ∃ d ∈ st.population, c.fitness ≤ d.fitness) ∧
  st.population ∈ st.trace

/-- Invariant behind C7: every chromosome of every recorded population
satisfies the gene invariant. -/
def In7 (st : GAState) : Prop :=
  (∀ p ∈ st.trace, ∀ c ∈ p, ChromOK c) ∧ st.population ∈ st.trace

lemma generation_step_In6 {src : RandSrc} {fit : Nat → Chromosome → ℚ}
    {cfg : GAConfig} {st st' : GAState} (helit : 1 ≤ cfg.elitism_count)
    (h : generation_step src fit cfg st = some st') (hI : In6 st) :
    In6 st' := by
  unfold generation_step at h
  split at h
  · exact absurd h (by simp)
  next best sortedRest hs =>
    split at h
    · exact absurd h (by simp)
    next children k1 hmc =>
      simp only [Option.some.injEq] at h
      subst h
      obtain ⟨hchain, hbound⟩ := hI
      have hmax : ∀ c ∈ st.population, c.fitness ≤ best.fitness :=
        sortPop_head_max hs
      have hhist : ∀ x ∈ st.best_fitness_history, x ≤ best.fitness := by
        intro x hx
        obtain ⟨c, hc, hxc⟩ := hbound x hx
        exact le_trans hxc (hmax c hc)
      obtain ⟨t, ht⟩ := nextPopulation_head fit cfg best sortedRest children
        st.e helit
      constructor
      · show List.Chain' (· ≤ ·) (st.best_fitness_history ++ [best.fitness])
        rw [List.chain'_append]
        refine ⟨hchain, List.chain'_singleton _, ?_⟩
        intro x hx y hy
        simp only [List.head?_cons, Option.mem_def, Option.some.injEq] at hy
        subst hy
        exact hhist x (List.mem_of_mem_getLast? hx)
      · intro hq hmem
        show ∃ c ∈ (nextPopulation fit cfg (best :: sortedRest) children
          st.e).1, hq ≤ c.fitness
        have hqb : hq ≤ best.fitness := by
          rcases List.mem_append.mp hmem with h1 | h1
          · exact hhist hq h1
          · simp only [List.mem_singleton] at h1
            subst h1
            exact le_refl _
        exact ⟨best, by rw [ht]; exact List.mem_cons_self _ _, hqb⟩

lemma generation_step_In5 {src : RandSrc} {fit : Nat → Chromosome → ℚ}
    {cfg : GAConfig} {st st' : GAState} (helit : 1 ≤ cfg.elitism_count)
    (h : generation_step src fit cfg st = some st') (hI : In5 st) :
    In5 st' := by
  unfold generation_step at h
  split at h
  · exact absurd h (by simp)
  next best sortedRest hs =>
    split at h
    · exact absurd h (by simp)
    next children k1 hmc =>
      simp only [Option.some.injEq] at h
      subst h
      obtain ⟨hbnd, htr⟩ := hI
      have hmax : ∀ c ∈ st.population, c.fitness ≤ best.fitness :=
        sortPop_head_max hs
      obtain ⟨t, ht⟩ := nextPopulation_head fit cfg best sortedRest children
        st.e helit
      constructor
      · intro p hp c hc
        show ∃ d ∈ (nextPopulation fit cfg (best :: sortedRest) children
          st.e).1, c.fitness ≤ d.fitness
        rcases List.mem_append.mp hp with h1 | h1
        · obtain ⟨d, hd, hcd⟩ := hbnd p h1 c hc
          exact ⟨best, by rw [ht]; exact List.mem_cons_self _ _,
            le_trans hcd (hmax d hd)⟩
        · simp only [List.mem_singleton] at h1
          subst h1
          exact ⟨c, hc, le_refl _⟩
      · exact List.mem_append_right _ (List.mem_singleton.mpr rfl)

lemma generation_step_In7 {src : RandSrc} {fit : Nat → Chromosome → ℚ}
    {cfg : GAConfig} {st st' : GAState}
    (h : generation_step src fit cfg st = some st') (hI : In7 st) :
    In7 st' := by
  unfold generation_step at h
  split at h
  · exact absurd h (by simp)
  next best sortedRest hs =>
    split at h
    · exact absurd h (by simp)
    next children k1 hmc =>
      simp only [Option.some.injEq] at h
      subst h
      obtain ⟨hok, htr⟩ := hI
      have hpopok : ∀ c ∈ st.population, ChromOK c := hok _ htr
      have hsortok : ∀ c ∈ best :: sortedRest, ChromOK c := by
        intro c hc
        exact hpopok c (sortPop_subset c (by rw [hs]; exact hc))
      have hchildok : ∀ c ∈ children, ChromOK c :=
        makeChildren_ok src _ _ _ hsortok _ _ _ _ hmc
      have hnextok : ∀ c ∈ (nextPopulation fit cfg (best :: sortedRest)
          children st.e).1, ChromOK c := by
        intro c hc
        obtain ⟨d, hd, h1, h2⟩ := nextPopulation_genes c hc
        rcases List.mem_append.mp hd with hx | hx
        · exact ChromOK_congr h1 h2 (hsortok d (List.take_subset _ _ hx))
        · exact ChromOK_congr h1 h2 (hchildok d hx)
      constructor
      · intro p hp c hc
        rcases List.mem_append.mp hp with h1 | h1
        · exact hok p h1 c hc
        · simp only [List.mem_singleton] at h1
          subst h1
          exact hnextok c hc
      · exact List.mem_append_right _ (List.mem_singleton.mpr rfl)

lemma iterateM_inv {f : GAState → Option GAState} {P : GAState → Prop}
    (hf : ∀ s s2, f s = some s2 → P s → P s2) :
    ∀ (n : Nat) (s s2 : GAState), iterateM f n s = some s2 → P s → P s2 := by
  intro n
  induction n with
  | zero =>
    intro s s2 h hP
    unfold iterateM at h
    simp only [Option.some.injEq] at h
    subst h
    exact hP
  | succ m ih =>
    intro s s2 h hP
    unfold iterateM at h
    cases hfs : f s with
    | none => rw [hfs] at h; exact absurd h (by simp)
    | some s1 =>
      rw [hfs] at h
      exact ih s1 s2 h (hf s s1 hfs hP)

lemma evolve_some {src : RandSrc} {fit : Nat → Chromosome → ℚ}
    {cfg : GAConfig} {b : Chromosome} {st : GAState}
    (h : evolve src fit cfg = some (b, st)) :
    ∃ stF sortedRest,
      iterateM (generation_step src fit cfg) cfg.num_generations
        (initialState src fit cfg) = some stF ∧
      sortPop stF.population = b :: sortedRest ∧
      st = { stF with
              population := b :: sortedRest
              best_chromosome := some b } := by
  unfold evolve at h
  split at h
  · exact absurd h (by simp)
  next stF hit =>
    split at h
    · exact absurd h (by simp)
    next best sortedRest hs =>
      simp only [Option.some.injEq, Prod.mk.injEq] at h
      obtain ⟨rfl, rfl⟩ := h
      exact ⟨stF, sortedRest, hit, hs, rfl⟩

lemma initialState_In6 (src : RandSrc) (fit : Nat → Chromosome → ℚ)
    (cfg : GAConfig) : In6 (initialState src fit cfg) := by
  constructor
  · exact List.chain'_nil
  · intro hq hh
    simp [initialState] at hh

lemma initialState_In5 (src : RandSrc) (fit : Nat → Chromosome → ℚ)
    (cfg : GAConfig) : In5 (initialState src fit cfg) := by
  constructor
  · intro p hp c hc
    simp only [initialState, List.mem_singleton] at hp
    subst hp
    exact ⟨c, hc, le_refl _⟩
  · simp [initialState]

lemma initialState_In7 (src : RandSrc) (fit : Nat → Chromosome → ℚ)
    (cfg : GAConfig) : In7 (initialState src fit cfg) := by
  constructor
  · intro p hp c hc
    simp only [initialState, List.mem_singleton] at hp
    subst hp
    obtain ⟨d, hd, h1, h2⟩ := evalPopulation_genes fit _ _ c hc
    exact ChromOK_congr h1 h2 (initialize_population_ok src _ _ d hd)
  · simp [initialState]

/-- A random source whose `random.random()` draws are all `1/2` and whose
integer draws are all 0 (used for concrete runs). -/
def srcNeutral : RandSrc := { floats := fun _ => 1/2, nats := fun _ => 0 }

/-- A fitness oracle that always reports 0. -/
def fitZero : Nat → Chromosome → ℚ := fun _ _ => 0

/-- A 1-member, 1-generation configuration with elitism (for witnesses). -/
def cfgSmall : GAConfig :=
  { population_size := 1, crossover_rate := 0, mutation_rate := 0,
    num_generations := 1, elitism_count := 1 }

/-- A fitness oracle giving the initial population the fitnesses 10, 5, 5
and every later chromosome fitness 1 (for the C5 counterexample). -/
def fitC5 : Nat → Chromosome → ℚ :=
  fun e _ => if e = 0 then 10 else if e < 3 then 5 else 1

/-- A 3-member, 1-generation configuration with `elitism_count = 0`. -/
def cfgC5 : GAConfig :=
  { population_size := 3, crossover_rate := 0, mutation_rate := 0,
    num_generations := 1, elitism_count := 0 }

/-- The chromosome returned by the C5 counterexample run. -/
def bC5 : Chromosome :=
  ((evolve srcNeutral fitC5 cfgC5).map Prod.fst).getD standardChromosome

/-- The trace of the C5 counterexample run. -/
def traceC5 : List (List Chromosome) :=
  ((evolve srcNeutral fitC5 cfgC5).map (fun r => r.2.trace)).getD []

/-- C5 counterexample: with `elitism_count = 0` (allowed by the claim, which
only requires `elitismCount ≥ 0`), `evolve` completes but returns a
chromosome of fitness 1 while a chromosome of strictly higher fitness (10)
was observed in an earlier generation — the final-population re-assignment
of `best_chromosome` (ga_optimizer.py, line 261) discards the all-time-best
snapshot. -/
theorem C5_counterexample_elitism_zero :
    (evolve srcNeutral fitC5 cfgC5).isSome = true ∧
    cfgC5.elitism_count = 0 ∧
    ∃ p ∈ traceC5, ∃ c ∈ p, bC5.fitness < c.fitness := by
  refine ⟨by decide, rfl, ?_⟩
  decide

/-- C5 (amended): for every configuration with `elitismCount ≥ 1` and
`numGenerations ≥ 1`, `evolve()` returns a chromosome whose fitness equals
the maximum fitness observed over every chromosome of every generation of
the run (with elitism the final population still contains that maximum;
with `elitismCount = 0` the claim is false, see the counterexample). -/
theorem C5_amended_returns_all_time_best (src : RandSrc)
    (fit : Nat → Chromosome → ℚ) (cfg : GAConfig)
    (helit : 1 ≤ cfg.elitism_count) (_hgen : 1 ≤ cfg.num_generations) :
    (evolve src fit cfg).elim True (fun r =>
      (∀ p ∈ r.2.trace, ∀ c ∈ p, c.fitness ≤ r.1.fitness) ∧
      ∃ p ∈ r.2.trace, ∃ c ∈ p, c.fitness = r.1.fitness) := by
  cases hev : evolve src fit cfg with
  | none => simp
  | some r =>
    obtain ⟨b, st⟩ := r
    simp only [Option.elim]
    obtain ⟨stF, rest, hit, hs, rfl⟩ := evolve_some hev
    have hF : In5 stF := iterateM_inv
      (fun s s2 hss => generation_step_In5 helit hss) _ _ _ hit
      (initialState_In5 src fit cfg)
    have hmax := sortPop_head_max hs
    constructor
    · intro p hp c hc
      obtain ⟨d, hd, hcd⟩ := hF.1 p hp c hc
      exact le_trans hcd (hmax d hd)
    · exact ⟨stF.population, hF.2, b, sortPop_head_mem hs, rfl⟩

/-- Witness for C5 (amended) on the 1-member elitist run. -/
theorem C5_amended_returns_all_time_best_witness :
    (evolve srcNeutral fitZero cfgSmall).elim True (fun r =>
      (∀ p ∈ r.2.trace, ∀ c ∈ p, c.fitness ≤ r.1.fitness) ∧
      ∃ p ∈ r.2.trace, ∃ c ∈ p, c.fitness = r.1.fitness) :=
  C5_amended_returns_all_time_best srcNeutral fitZero cfgSmall
    (by decide) (by decide)

/-- C6: for every completed run of `evolve()` with `elitismCount ≥ 1`, the
recorded `bestFitness` history is non-decreasing generation over
generation. -/
theorem C6_best_fitness_history_nondecreasing (src : RandSrc)
    (fit : Nat → Chromosome → ℚ) (cfg : GAConfig)
    (helit : 1 ≤ cfg.elitism_count) :
    (evolve src fit cfg).elim True (fun r =>
      r.2.best_fitness_history.Chain' (· ≤ ·)) := by
  cases hev : evolve src fit cfg with
  | none => simp
  | some r =>
    obtain ⟨b, st⟩ := r
    simp only [Option.elim]
    obtain ⟨stF, rest, hit, hs, rfl⟩ := evolve_some hev
    have hF : In6 stF := iterateM_inv
      (fun s s2 hss => generation_step_In6 helit hss) _ _ _ hit
      (initialState_In6 src fit cfg)
    exact hF.1

/-- Witness for C6 on the 1-member elitist run. -/
theorem C6_best_fitness_history_nondecreasing_witness :
    (evolve srcNeutral fitZero cfgSmall).elim True (fun r =>
      r.2.best_fitness_history.Chain' (· ≤ ·)) :=
  C6_best_fitness_history_nondecreasing srcNeutral fitZero cfgSmall
    (by decide)

/-- C7: every chromosome produced by any engine operation — random
initialization, the neutral baseline, crossover offspring, mutation, and
the chromosome returned by `evolve()` (together with every member of every
population of the run) — has gene arrays of length exactly 10 with every
gene in `{1, 2, 3}`. -/
theorem C7_gene_domain_invariant :
    (∀ (src : RandSrc) (k : Nat), ChromOK (randomChromosome src k).1) ∧
    ChromOK standardChromosome ∧
    (∀ (src : RandSrc) (rate : ℚ) (p1 p2 : Chromosome) (k : Nat),
      ChromOK p1 → ChromOK p2 →
      ChromOK (crossover_single_point src rate p1 p2 k).1.1 ∧
      ChromOK (crossover_single_point src rate p1 p2 k).1.2) ∧
    (∀ (src : RandSrc) (rate : ℚ) (c : Chromosome) (k : Nat),
      ChromOK c → ChromOK (mutate src rate c k).1) ∧
    (∀ (src : RandSrc) (fit : Nat → Chromosome → ℚ) (cfg : GAConfig),
      (evolve src fit cfg).elim True (fun r =>
        ChromOK r.1 ∧ ∀ p ∈ r.2.trace, ∀ c ∈ p, ChromOK c)) := by
  refine ⟨randomChromosome_ok, standardChromosome_ok,
    fun src rate p1 p2 k h1 h2 => crossover_ok h1 h2,
    fun src rate c k h => mutate_ok h, ?_⟩
  intro src fit cfg
  cases hev : evolve src fit cfg with
  | none => simp
  | some r =>
    obtain ⟨b, st⟩ := r
    simp only [Option.elim]
    obtain ⟨stF, rest, hit, hs, rfl⟩ := evolve_some hev
    have hF : In7 stF := iterateM_inv
      (fun s s2 hss => generation_step_In7 hss) _ _ _ hit
      (initialState_In7 src fit cfg)
    have hpop : ∀ c ∈ stF.population, ChromOK c := hF.1 _ hF.2
    exact ⟨hpop b (sortPop_head_mem hs), fun p hp c hc => hF.1 p hp c hc⟩

/-- The all-twos chromosome (a domain-valid parent distinct from the
baseline). -/
def twosChromosome : Chromosome :=
  { rotations := List.replicate 10 2
    rcon_multipliers := List.replicate 10 2
    fitness := 0 }

/-- Witness for C7: crossover, mutation, and the small `evolve` run. -/
theorem C7_gene_domain_invariant_witness :
    (ChromOK (crossover_single_point srcNeutral 1 standardChromosome
        twosChromosome 0).1.1 ∧
     ChromOK (crossover_single_point srcNeutral 1 standardChromosome
        twosChromosome 0).1.2) ∧
    ChromOK (mutate srcNeutral 1 standardChromosome 0).1 ∧
    (evolve srcNeutral fitZero cfgSmall).elim True (fun r =>
      ChromOK r.1 ∧ ∀ p ∈ r.2.trace, ∀ c ∈ p, ChromOK c) :=
  ⟨C7_gene_domain_invariant.2.2.1 srcNeutral 1 standardChromosome
      twosChromosome 0 (by decide) (by decide),
   C7_gene_domain_invariant.2.2.2.1 srcNeutral 1 standardChromosome 0
      (by decide),
   C7_gene_domain_invariant.2.2.2.2 srcNeutral fitZero cfgSmall⟩

/-- A random source whose `random.random()` draws are all exactly 0 —
a possible behaviour of Python's `random.random()`, whose range is the
half-open interval `[0.0, 1.0)`. -/
def srcZeroDraw : RandSrc := { floats := fun _ => 0, nats := fun _ => 0 }

/-- C8 counterexample: with `crossoverRate = 0`, the draw `random.random()
= 0.0` fails the `> 0` guard, so crossover is performed instead of copying
— the children are not copies of the parents. -/
theorem C8_counterexample_zero_float_draw :
    (crossover_single_point srcZeroDraw 0 standardChromosome twosChromosome
      0).1 ≠ (standardChromosome, twosChromosome) := by
  decide

/-- C8 (amended): with `crossoverRate = 0`, for every pair of parents and
every draw whose `random.random()` value is strictly positive (all draws
except exactly 0.0), crossover returns exact, unmodified copies of both
parents. -/
theorem C8_amended_copies_when_draw_positive (src : RandSrc)
    (p1 p2 : Chromosome) (k : Nat) (hpos : 0 < src.floats k) :
    crossover_single_point src 0 p1 p2 k = ((p1, p2), k + 1) := by
  simp only [crossover_single_point]
  rw [if_pos hpos]

/-- Witness for C8 (amended) at a draw of 1/2. -/
theorem C8_amended_copies_when_draw_positive_witness :
    crossover_single_point srcNeutral 0 standardChromosome twosChromosome 5 =
      ((standardChromosome, twosChromosome), 6) :=
  C8_amended_copies_when_draw_positive srcNeutral standardChromosome
    twosChromosome 5 (by norm_num [srcNeutral])

/-- The cut point `random.randint(1, 9)` drawn inside
`crossover_single_point` after the rate draw at counter `k`. -/
def cutPoint (src : RandSrc) (k : Nat) : Nat := 1 + src.nats (k + 1) % 9

lemma take_cross {a b : List Nat} {p : Nat} (ha : p ≤ a.length) :
    (a.take p ++ b.drop p).take p = a.take p := by
  rw [List.take_append_of_le_length (by simp; omega)]
  simp [List.take_take]

lemma drop_cross {a b : List Nat} {p : Nat} (ha : p ≤ a.length) :
    (a.take p ++ b.drop p).drop p = b.drop p :=
  List.drop_left' (by simp; omega)

/-- C9: with `crossoverRate = 1` (and a rate draw below 1, as
`random.random()` guarantees), crossover draws a single cut point in `1..9`
and applies it identically to both gene arrays: child1 is parent1 before
the cut and parent2 from the cut on, for both arrays, and child2 is the
exact complement. -/
theorem C9_crossover_rate_one_single_cut (src : RandSrc) (p1 p2 : Chromosome)
    (k : Nat)
    (hl1 : p1.rotations.length = 10) (hl1r : p1.rcon_multipliers.length = 10)
    (hl2 : p2.rotations.length = 10) (hl2r : p2.rcon_multipliers.length = 10)
    (hlt : src.floats k < 1) :
    1 ≤ cutPoint src k ∧ cutPoint src k ≤ 9 ∧
    (crossover_single_point src 1 p1 p2 k).2 = k + 2 ∧
    (crossover_single_point src 1 p1 p2 k).1.1.rotations.take
      (cutPoint src k) = p1.rotations.take (cutPoint src k) ∧
    (crossover_single_point src 1 p1 p2 k).1.1.rotations.drop
      (cutPoint src k) = p2.rotations.drop (cutPoint src k) ∧
    (crossover_single_point src 1 p1 p2 k).1.1.rcon_multipliers.take
      (cutPoint src k) = p1.rcon_multipliers.take (cutPoint src k) ∧
    (crossover_single_point src 1 p1 p2 k).1.1.rcon_multipliers.drop
      (cutPoint src k) = p2.rcon_multipliers.drop (cutPoint src k) ∧
    (crossover_single_point src 1 p1 p2 k).1.2.rotations.take
      (cutPoint src k) = p2.rotations.take (cutPoint src k) ∧
    (crossover_single_point src 1 p1 p2 k).1.2.rotations.drop
      (cutPoint src k) = p1.rotations.drop (cutPoint src k) ∧
    (crossover_single_point src 1 p1 p2 k).1.2.rcon_multipliers.take
      (cutPoint src k) = p2.rcon_multipliers.take (cutPoint src k) ∧
    (crossover_single_point src 1 p1 p2 k).1.2.rcon_multipliers.drop
      (cutPoint src k) = p1.rcon_multipliers.drop (cutPoint src k) := by
  have hnot : ¬ (src.floats k > 1) := not_lt.mpr (le_of_lt hlt)
  have hp9 : cutPoint src k ≤ 9 := by
    have := Nat.mod_lt (src.nats (k + 1)) (show 0 < 9 by norm_num)
    unfold cutPoint
    omega
  refine ⟨by unfold cutPoint; omega, hp9, ?_⟩
  simp only [crossover_single_point]
  rw [if_neg hnot]
  refine ⟨rfl, ?_, ?_, ?_, ?_, ?_, ?_, ?_, ?_⟩ <;>
    first
    | exact take_cross (by omega)
    | exact drop_cross (by omega)

/-- Witness for C9 with the all-ones and all-twos parents at a cut point
of 1. -/
theorem C9_crossover_rate_one_single_cut_witness :
    1 ≤ cutPoint srcNeutral 0 ∧ cutPoint srcNeutral 0 ≤ 9 ∧
    (crossover_single_point srcNeutral 1 standardChromosome twosChromosome
      0).2 = 0 + 2 ∧
    (crossover_single_point srcNeutral 1 standardChromosome twosChromosome
      0).1.1.rotations.take (cutPoint srcNeutral 0) =
      standardChromosome.rotations.take (cutPoint srcNeutral 0) ∧
    (crossover_single_point srcNeutral 1 standardChromosome twosChromosome
      0).1.1.rotations.drop (cutPoint srcNeutral 0) =
      twosChromosome.rotations.drop (cutPoint srcNeutral 0) ∧
    (crossover_single_point srcNeutral 1 standardChromosome twosChromosome
      0).1.1.rcon_multipliers.take (cutPoint srcNeutral 0) =
      standardChromosome.rcon_multipliers.take (cutPoint srcNeutral 0) ∧
    (crossover_single_point srcNeutral 1 standardChromosome twosChromosome
      0).1.1.rcon_multipliers.drop (cutPoint srcNeutral 0) =
      twosChromosome.rcon_multipliers.drop (cutPoint srcNeutral 0) ∧
    (crossover_single_point srcNeutral 1 standardChromosome twosChromosome
      0).1.2.rotations.take (cutPoint srcNeutral 0) =
      twosChromosome.rotations.take (cutPoint srcNeutral 0) ∧
    (crossover_single_point srcNeutral 1 standardChromosome twosChromosome
      0).1.2.rotations.drop (cutPoint srcNeutral 0) =
      standardChromosome.rotations.drop (cutPoint srcNeutral 0) ∧
    (crossover_single_point srcNeutral 1 standardChromosome twosChromosome
      0).1.2.rcon_multipliers.take (cutPoint srcNeutral 0) =
      twosChromosome.rcon_multipliers.take (cutPoint srcNeutral 0) ∧
    (crossover_single_point srcNeutral 1 standardChromosome twosChromosome
      0).1.2.rcon_multipliers.drop (cutPoint srcNeutral 0) =
      standardChromosome.rcon_multipliers.drop (cutPoint srcNeutral 0) :=
  C9_crossover_rate_one_single_cut srcNeutral standardChromosome
    twosChromosome 0 (by decide) (by decide) (by decide) (by decide)
    (by norm_num [srcNeutral])

end GAAES
